import Mathlib

/-!
# Verification of the Evidence-to-Element Matching Engine

A shallow embedding, in Lean 4, of the matching core of the `audithelpers`
repository: `src/utils/element_extract.py` (reference extraction, id
normalization, sort keys) and `src/matching/match_evidence.py` (registry
builder, matcher, serializer).

Modelling conventions:
* Python strings are Lean `String`s over ASCII text; the character classes
  `\d`, `[A-Za-z]`, `\s`, `\w` and the methods `str.isalpha` / `str.upper` /
  `str.lower` / `str.strip` are modelled on their ASCII ranges (the id
  grammar and the slide conventions in the source are ASCII, except the
  en-dash which is carried through verbatim).
* Each of the six regexes of `ELEMENT_PATTERNS` is hand-compiled to a
  deterministic matcher over `List Char`.  The only backtracking points in
  those regexes are the optional `[A-Za-z]?` / `[\s-]?` items and the lazy
  `.*?`; each is compiled with its explicit two-branch (or scanning)
  semantics, so the matchers agree with the `re` module on these patterns.
  `finditer` semantics (leftmost, non-overlapping, continue after each
  match) is `reFinditer` below.
* Python `float` values that arise here are finite decimals; they are
  modelled as exact rationals (`ℚ`).  `float(s)` is modelled for plain
  decimal literals (sign, digits, one optional dot); the exotic forms
  (exponents, underscores, `inf`/`nan`) are outside the id grammar.
* A Python `set` is modelled by its list of distinct members
  (`get_all_elements`); wherever the matcher *iterates* a set (order
  observable), the iteration order is supplied by an explicit oracle
  parameter `setIter` so that what holds for every order is proved for
  every order, and within one process the oracle is fixed.
* A Python `dict` is modelled as an association list in insertion order;
  assigning to an existing key replaces the value in place (as `dict` does).
-/

/-! ## Python character classes (ASCII) -/

/-- Python regex `\s` and `str.strip` whitespace: space, TAB, LF, VT, FF, CR. -/
def pySpace (c : Char) : Bool :=
  c.toNat = 32 || (9 ≤ c.toNat && c.toNat ≤ 13)

/-- Regex `\d` / ASCII decimal digit. -/
def pyDigit (c : Char) : Bool :=
  48 ≤ c.toNat && c.toNat ≤ 57

/-- Regex `[A-Za-z]` / ASCII `str.isalpha`. -/
def pyAlpha (c : Char) : Bool :=
  (65 ≤ c.toNat && c.toNat ≤ 90) || (97 ≤ c.toNat && c.toNat ≤ 122)

/-- Regex `\w`: ASCII letters, digits and underscore. -/
def pyWord (c : Char) : Bool :=
  pyAlpha c || pyDigit c || c = '_'

/-- ASCII `str.upper` on one character. -/
def pyUpper (c : Char) : Char :=
  if 97 ≤ c.toNat ∧ c.toNat ≤ 122 then Char.ofNat (c.toNat - 32) else c

/-- ASCII `str.lower` on one character. -/
def pyLower (c : Char) : Char :=
  if 65 ≤ c.toNat ∧ c.toNat ≤ 90 then Char.ofNat (c.toNat + 32) else c

/-! ## List/string helpers -/

/-- `str.strip()` on a character list: drop ASCII whitespace from both ends. -/
def stripL (l : List Char) : List Char :=
  ((l.dropWhile pySpace).reverse.dropWhile pySpace).reverse

/-- `str.strip()`. -/
def pyStrip (s : String) : String :=
  String.mk (stripL s.toList)

/-- `str.rstrip(c)`: drop a trailing run of the character `c`. -/
def pyRstrip (c : Char) (s : String) : String :=
  String.mk ((s.toList.reverse.dropWhile (· = c)).reverse)

/-- The member list of a Python set built from `xs`: first occurrences kept. -/
def dedupFirst : List String → List String :=
  go []
where
  go (seen : List String) : List String → List String
    | [] => []
    | x :: xs => if x ∈ seen then go seen xs else x :: go (x :: seen) xs

/-- Substring test (`pat in s` for Python strings). -/
def containsSubL (pat : List Char) : List Char → Bool
  | [] => pat.isEmpty
  | c :: rest => pat.isPrefixOf (c :: rest) || containsSubL pat rest

/-- `pat in s` for Python strings. -/
def pyContains (s pat : String) : Bool :=
  containsSubL pat.toList s.toList

/-- `str.lower()` on a string (ASCII). -/
def pyLowerStr (s : String) : String :=
  String.mk (s.toList.map pyLower)

/-- Match a literal pattern case-insensitively at the head of `l`,
returning the remainder.  Compiles the `re.IGNORECASE` literal parts. -/
def ciLiteral : List Char → List Char → Option (List Char)
  | [], l => some l
  | _ :: _, [] => none
  | p :: ps, c :: cs => if pyLower c = pyLower p then ciLiteral ps cs else none

/-! ## The six `ELEMENT_PATTERNS` regexes, hand-compiled

Each `try…` function attempts a match anchored at the head of the list and
returns `(capture group 1, rest of the text after the whole match)`. -/

/-- Parse `\d+\.\d+` (both digit runs maximal, which is exact here because
in every pattern the digits are followed by an item no digit can match).
Returns the consumed characters and the rest. -/
def tryNumCore (l : List Char) : Option (List Char × List Char) :=
  let (d1, r1) := l.span pyDigit
  if d1.isEmpty then none else
  match r1 with
  | '.' :: r2 =>
    let (d2, r3) := r2.span pyDigit
    if d2.isEmpty then none else some (d1 ++ '.' :: d2, r3)
  | _ => none

/-- Tail `\s*>` shared by the arrow patterns. -/
def arrowClose (g : List Char) (r : List Char) : Option (String × List Char) :=
  match r.dropWhile pySpace with
  | '>' :: rest => some (String.mk g, rest)
  | _ => none

/-- Tail `[A-Za-z]?\s*>`: the optional letter is greedy, with its one
backtracking alternative made explicit. -/
def arrowTail (idc : List Char) (r : List Char) : Option (String × List Char) :=
  (match r with
   | c :: r2 => if pyAlpha c then arrowClose (idc ++ [c]) r2 else none
   | [] => none)
  <|> arrowClose idc r

/-- Pattern 1 `(\d+\.\d+[A-Za-z]?)\s*>` (`arrow_format`). -/
def tryArrow (l : List Char) : Option (String × List Char) :=
  match tryNumCore l with
  | some (idc, r) => arrowTail idc r
  | none => none

/-- Pattern 2 `NEXT\s+(\d+\.\d+[A-Za-z]?)\s*>` (`next_arrow_format`). -/
def tryNextArrow (l : List Char) : Option (String × List Char) :=
  match ciLiteral "next".toList l with
  | none => none
  | some r1 =>
    let (ws, r2) := r1.span pySpace
    if ws.isEmpty then none else
    match tryNumCore r2 with
    | some (idc, r3) => arrowTail idc r3
    | none => none

/-- Pattern 3 `PI[\s-]?(\d+)` (`pi_header`): the optional `[\s-]` is greedy
with explicit backtracking (which can never succeed, since the skipped
character is not a digit). -/
def tryPiHeader (l : List Char) : Option (String × List Char) :=
  match ciLiteral "pi".toList l with
  | none => none
  | some r1 =>
    (match r1 with
     | c :: r2 =>
       if pySpace c || c = '-' then
         let (d, r3) := r2.span pyDigit
         if d.isEmpty then none else some (String.mk d, r3)
       else none
     | [] => none)
    <|> (let (d, r2) := r1.span pyDigit
         if d.isEmpty then none else some (String.mk d, r2))

/-- Tail `[A-Za-z]?\)` of the parenthesized id. -/
def parenClose (idc : List Char) (r : List Char) : Option (String × List Char) :=
  (match r with
   | c :: r2 =>
     if pyAlpha c then
       match r2 with
       | ')' :: rest => some (String.mk (idc ++ [c]), rest)
       | _ => none
     else none
   | [] => none)
  <|> (match r with
       | ')' :: rest => some (String.mk idc, rest)
       | _ => none)

/-- Pattern 4 `\((\d+\.\d+[A-Za-z]?)\)` (`parentheses_format`). -/
def tryParen (l : List Char) : Option (String × List Char) :=
  match l with
  | '(' :: r1 =>
    (match tryNumCore r1 with
     | some (idc, r2) => parenClose idc r2
     | none => none)
  | _ => none

/-- Pattern 5 `[Ee]lement\s+(\d+\.\d+[A-Za-z]?)` (`element_explicit`):
the optional letter is greedy and nothing follows it, so it is simply
taken when present. -/
def tryElementExplicit (l : List Char) : Option (String × List Char) :=
  match ciLiteral "element".toList l with
  | none => none
  | some r1 =>
    let (ws, r2) := r1.span pySpace
    if ws.isEmpty then none else
    match tryNumCore r2 with
    | some (idc, r3) =>
      match r3 with
      | c :: r4 => if pyAlpha c then some (String.mk (idc ++ [c]), r4)
                   else some (String.mk idc, r3)
      | [] => some (String.mk idc, r3)
    | none => none

/-- The lazy tail `.*?\((\d+\.\d+[A-Za-z]?)\)` of the slide-title pattern:
scan forward, shortest first, never across a newline (`.` excludes `\n`). -/
def lazyParenScan : List Char → Option (String × List Char)
  | [] => none
  | c :: rest =>
    match tryParen (c :: rest) with
    | some res => some res
    | none => if c = '\n' then none else lazyParenScan rest

/-- Pattern 6 `PI\s+\d+\s*[–-]\s*\w+.*?\((\d+\.\d+[A-Za-z]?)\)`
(`slide_title_format`). -/
def trySlideTitle (l : List Char) : Option (String × List Char) :=
  match ciLiteral "pi".toList l with
  | none => none
  | some r1 =>
    let (ws1, r2) := r1.span pySpace
    if ws1.isEmpty then none else
    let (d1, r3) := r2.span pyDigit
    if d1.isEmpty then none else
    match r3.dropWhile pySpace with
    | c :: r5 =>
      if c = '–' || c = '-' then
        let (w, r7) := (r5.dropWhile pySpace).span pyWord
        if w.isEmpty then none else lazyParenScan r7
      else none
    | [] => none

/-- `re.finditer` driver: leftmost, non-overlapping, continue after each
match.  Fuelled by the text length (every successful match consumes at
least one character, so the fuel is never exhausted early). -/
def reFinditerAux (f : List Char → Option (String × List Char)) :
    Nat → List Char → List String
  | 0, _ => []
  | _ + 1, [] => []
  | fuel + 1, c :: rest =>
    match f (c :: rest) with
    | some (g, r) => g :: reFinditerAux f fuel r
    | none => reFinditerAux f fuel rest

/-- All group-1 captures of one pattern over `text`, in occurrence order. -/
def reFinditer (f : List Char → Option (String × List Char)) (text : String) :
    List String :=
  reFinditerAux f (text.toList.length + 1) text.toList

/-! ## `element_extract.py`: the extraction API -/

/-- The six pattern names, a closed enumeration in declaration order of
`ELEMENT_PATTERNS`. -/
inductive PatKind where
  | arrow_format
  | next_arrow_format
  | pi_header
  | parentheses_format
  | element_explicit
  | slide_title_format
deriving DecidableEq, Repr

/-- The pattern-name strings used by the matcher (`match_pattern` field). -/
def patternName : PatKind → String
  | .arrow_format => "arrow_format"
  | .next_arrow_format => "next_arrow_format"
  | .pi_header => "pi_header"
  | .parentheses_format => "parentheses_format"
  | .element_explicit => "element_explicit"
  | .slide_title_format => "slide_title_format"

/-- Uppercase the last character when it is a letter
(`element_id[:-1] + element_id[-1].upper()`). -/
def upLastL (l : List Char) : List Char :=
  match l.getLast? with
  | some c => if pyAlpha c then l.dropLast ++ [pyUpper c] else l
  | none => l

/-- `normalize_element_id`: strip whitespace, then uppercase a trailing
letter. -/
def normalize_element_id (s : String) : String :=
  String.mk (upLastL (stripL s.toList))

/-- `extract_element_references`: all matches of the six patterns, in the
order the patterns are declared, then in text occurrence order within a
pattern; every captured id is normalized. -/
def extract_element_references (text : String) : List (String × PatKind) :=
  ((reFinditer tryArrow text).map
      (fun e => (normalize_element_id e, PatKind.arrow_format)))
  ++ ((reFinditer tryNextArrow text).map
      (fun e => (normalize_element_id e, PatKind.next_arrow_format)))
  ++ ((reFinditer tryPiHeader text).map
      (fun e => (normalize_element_id e, PatKind.pi_header)))
  ++ ((reFinditer tryParen text).map
      (fun e => (normalize_element_id e, PatKind.parentheses_format)))
  ++ ((reFinditer tryElementExplicit text).map
      (fun e => (normalize_element_id e, PatKind.element_explicit)))
  ++ ((reFinditer trySlideTitle text).map
      (fun e => (normalize_element_id e, PatKind.slide_title_format)))

/-- The priority list of `get_primary_element`, exactly as in the source. -/
def priorityOrder : List PatKind :=
  [.arrow_format, .next_arrow_format, .slide_title_format,
   .element_explicit, .parentheses_format, .pi_header]

/-- The nested loop of `get_primary_element`: for each priority kind in
turn, return the first match of that kind. -/
def priorityLoop (ms : List (String × PatKind)) :
    List PatKind → Option String
  | [] => none
  | k :: rest =>
    match ms.find? (fun m => m.2 == k) with
    | some m => some m.1
    | none => priorityLoop ms rest

/-- `get_primary_element`: `None` when there is no match; otherwise the
priority loop, with the `matches[0][0]` fallback of the source. -/
def get_primary_element (text : String) : Option String :=
  let ms := extract_element_references text
  if ms.isEmpty then none
  else
    match priorityLoop ms priorityOrder with
    | some e => some e
    | none => ms.head?.map (·.1)

/-- `get_all_elements`: the set of ids among the matches, modelled by its
member list (first occurrences); iteration order, where observable, is
supplied separately. -/
def get_all_elements (text : String) : List String :=
  dedupFirst ((extract_element_references text).map (·.1))

/-- `re.sub(r'[A-Za-z]+$', '', s)`: drop a trailing run of letters. -/
def dropTrailingAlpha (s : String) : String :=
  String.mk ((s.toList.reverse.dropWhile pyAlpha).reverse)

/-- Numeric value of a digit run. -/
def digitsVal (l : List Char) : Nat :=
  l.foldl (fun n c => n * 10 + (c.toNat - 48)) 0

/-- Python `float(s)` on plain decimal literals: surrounding whitespace,
an optional sign, digit runs around at most one dot, at least one digit.
Exact rational result; `none` models `ValueError`. -/
def parseDecimal (s : String) : Option ℚ :=
  let l := stripL s.toList
  let (sign, l1) : Int × List Char :=
    match l with
    | '+' :: r => (1, r)
    | '-' :: r => (-1, r)
    | _ => (1, l)
  let (d1, r1) := l1.span pyDigit
  match r1 with
  | [] => if d1.isEmpty then none else some (mkRat (sign * (digitsVal d1 : Int)) 1)
  | '.' :: r2 =>
    let (d2, r3) := r2.span pyDigit
    if r3.isEmpty then
      if d1.isEmpty && d2.isEmpty then none
      else some (mkRat
        (sign * ((digitsVal d1 * 10 ^ d2.length + digitsVal d2 : Nat) : Int))
        (10 ^ d2.length))
    else none
  | _ => none

/-- `element_to_float`: strip a trailing letter run, parse as a decimal,
`0.0` on `ValueError`. -/
def element_to_float (element_id : String) : ℚ :=
  match parseDecimal (dropTrailingAlpha element_id) with
  | some q => q
  | none => mkRat 0 1

/-- Anchored match of `^PI\s*\d+\s*[–-]` (the `header_pattern` of
`is_section_header`; note `\s*` where the extraction patterns use `\s+`). -/
def headerLineMatch (l : List Char) : Bool :=
  match ciLiteral "pi".toList l with
  | none => false
  | some r1 =>
    let (d, r2) := (r1.dropWhile pySpace).span pyDigit
    if d.isEmpty then false else
    match r2.dropWhile pySpace with
    | c :: _ => c = '–' || c = '-'
    | [] => false

/-- `str.split(sep)` for a one-character separator, keeping empty pieces
(structural, so that it computes by kernel reduction). -/
def splitOnChar (sep : Char) : List Char → List (List Char)
  | [] => [[]]
  | c :: rest =>
    match splitOnChar sep rest with
    | [] => [[]]
    | h :: t => if c = sep then [] :: h :: t else (c :: h) :: t

/-- `is_section_header`: at most 3 non-blank lines, one matching the
header pattern, and the text mentions neither "ask/look for" nor `>`. -/
def is_section_header (text : String) : Bool :=
  let lines := ((splitOnChar '\n' (pyStrip text).toList).map
    (fun l => String.mk (stripL l))).filter (fun l => !l.isEmpty)
  if lines.length ≤ 3 then
    lines.any (fun l => headerLineMatch l.toList)
      && !(pyContains (pyLowerStr text) "ask/look for")
      && !(text.toList.contains '>')
  else false

/-! ## `match_evidence.py`: registry builder -/

/-- A JSON value that may sit in the `PI-Element` field: a number or a
string.  A Python `int` is `num i ""`; a `float` is `num i frac` where
`i.frac` is its (shortest) decimal `str()` form. -/
inductive PyId where
  | num (i : Int) (frac : String)
  | str (s : String)
deriving DecidableEq, Repr

/-- One element definition row: `PI-Element` (possibly missing/null),
`Ask/Look For` and `Calibrator notes` (defaulted to `""` by `.get`). -/
structure ElementDef where
  piElement : Option PyId
  askLookFor : String
  calibratorNotes : String
deriving DecidableEq, Repr

/-- The registry value stored per key. -/
structure ElemInfo where
  piElement : String
  askLookFor : String
  calibratorNotes : String
deriving DecidableEq, Repr

/-- The trailing-zero dance of `build_elements_lookup`:
`rstrip('0')`, `rstrip('.')`, then force a `.0` when the dot vanished. -/
def stripZeroDance (s : String) : String :=
  if s.toList.contains '.' then
    let t := pyRstrip '.' (pyRstrip '0' s)
    if t.toList.contains '.' then t else t ++ ".0"
  else s

/-- The id-to-key conversion of `build_elements_lookup`: a numeric id is
rendered as `f"{x:.1f}"` when integral, else `str(x)`, then put through
the trailing-zero dance; a string id is kept verbatim (`str(x)`). -/
def pyIdKey : PyId → String
  | .num i frac =>
    let s := if frac.toList.all (· = '0') then toString i ++ ".0"
             else toString i ++ "." ++ frac
    stripZeroDance s
  | .str s => s

/-- `dict` assignment: replace in place when the key exists (keeping its
position, as Python dicts do), else append. -/
def insertOrReplace (m : List (String × ElemInfo)) (k : String) (v : ElemInfo) :
    List (String × ElemInfo) :=
  if m.any (fun p => p.1 == k) then
    m.map (fun p => if p.1 == k then (k, v) else p)
  else m ++ [(k, v)]

/-- `build_elements_lookup`: skip definitions with a missing/null id;
otherwise normalize the id to its key and assign (last write wins). -/
def build_elements_lookup (elements_data : List ElementDef) :
    List (String × ElemInfo) :=
  elements_data.foldl
    (fun lookup element =>
      match element.piElement with
      | none => lookup
      | some eid =>
        let key := pyIdKey eid
        insertOrReplace lookup key ⟨key, element.askLookFor, element.calibratorNotes⟩)
    []

/-! ## `match_evidence.py`: data model of the matcher -/

/-- One input slide record (`slide.get("index", 0)` etc.; the optional
fields model keys that may be absent from the JSON). -/
structure Slide where
  index : Nat
  text : String
  source_file : Option String
  source_index : Option Nat
deriving DecidableEq, Repr

/-- The parsed evidence JSON. -/
structure EvidenceData where
  slides : List Slide
  source_file : Option String
  source_files : Option (List String)
  total_slides : Option Nat
deriving DecidableEq, Repr

/-- The `EvidenceSlide` dataclass. -/
structure EvidenceSlide where
  slide_index : Nat
  text : String
  text_preview : String
  match_pattern : String
  all_elements_in_slide : List String
  is_primary_match : Bool
  source_file : String
  source_index : Nat
deriving DecidableEq, Repr

/-- The `MatchedElement` dataclass. -/
structure MatchedElement where
  pi_element : String
  ask_look_for : String
  calibrator_notes : String
  evidence : List EvidenceSlide
  evidence_count : Nat
deriving DecidableEq, Repr

/-- One record of the `unmatched_slides` list. -/
structure UnmatchedRecord where
  slide_index : Nat
  text_preview : String
  reason : String
deriving DecidableEq, Repr

/-- The `stats` dictionary. -/
structure Statistics where
  total_slides : Nat
  matched_slides : Nat
  unmatched_slides : Nat
  section_headers : Nat
  empty_slides : Nat
  elements_with_evidence : Nat
  elements_without_evidence : Nat
  multi_element_slides : Nat
deriving DecidableEq, Repr

/-- The `metadata` dictionary. -/
structure Metadata where
  source_evidence_files : List String
  total_source_slides : Nat
  generated_at : String
  generator : String
deriving DecidableEq, Repr

/-- The `MatchingResult` dataclass. -/
structure MatchingResult where
  metadata : Metadata
  matched_elements : List MatchedElement
  unmatched_slides : List UnmatchedRecord
  statistics : Statistics
deriving DecidableEq, Repr

/-! ## `match_evidence.py`: the matching pass -/

/-- `text[:n] + "..." if len(text) > n else text`. -/
def pyPreview (n : Nat) (text : String) : String :=
  if n < text.toList.length then String.mk (text.toList.take n) ++ "..." else text

/-- Stable insertion by a rational sort key: the new element goes after
every element whose key is `≤` its own, which is exactly the ordering of
Python's stable `sorted(..., key=...)`. -/
def insertByKey {α : Type} (k : α → ℚ) (x : α) : List α → List α
  | [] => [x]
  | y :: ys => if k y ≤ k x then y :: insertByKey k x ys else x :: y :: ys

/-- Python `sorted(xs, key=k)` (stable, by rational key). -/
def sortByKey {α : Type} (k : α → ℚ) (xs : List α) : List α :=
  xs.foldl (fun acc x => insertByKey k x acc) []

/-- Target resolution for one raw id: exact registry key first, then the
id with its trailing letter run stripped. -/
def resolveTarget (keys : List String) (e : String) : Option String :=
  if e ∈ keys then some e
  else
    let b := dropTrailingAlpha e
    if b ∈ keys then some b else none

/-- The per-slide fan-out loop: walk the slide's id set in iteration
order, resolve each id to a target, and emit `(target, raw id, is-primary)`
for each target not yet claimed by this slide (`matched_target_elements`).
`is-primary` is `elem_id == primary_element`. -/
def slidePairsCore (keys : List String) (primary : Option String) :
    List String → List String → List (String × String × Bool)
  | [], _ => []
  | e :: rest, claimed =>
    match resolveTarget keys e with
    | some t =>
      if t ∈ claimed then slidePairsCore keys primary rest claimed
      else (t, e, primary == some e) :: slidePairsCore keys primary rest (t :: claimed)
    | none => slidePairsCore keys primary rest claimed

/-- The primary-pattern lookup: first raw match whose id equals the
primary reference, with the `"unknown"` default. -/
def primaryPatternOf (ms : List (String × PatKind)) (primary : Option String) :
    String :=
  match primary with
  | some p =>
    match ms.find? (fun m => m.1 == p) with
    | some m => patternName m.2
    | none => "unknown"
  | none => "unknown"

/-- The in-progress accumulator of `match_slides_to_elements`. -/
structure MatchState where
  element_evidence : List (String × List EvidenceSlide)
  unmatched_slides : List UnmatchedRecord
  stats : Statistics
deriving Repr

/-- `element_evidence[target_elem].append(evidence_entry)`. -/
def appendEvidence (ev : List (String × List EvidenceSlide)) (t : String)
    (e : EvidenceSlide) : List (String × List EvidenceSlide) :=
  ev.map (fun p => if p.1 == t then (p.1, p.2 ++ [e]) else p)

/-- Python's `repr` of a set of strings, used in the unresolved-reference
reason text (member order is the iteration order). -/
def pySetRepr (xs : List String) : String :=
  let sq := String.mk [Char.ofNat 39]
  "\x7b" ++ String.intercalate ", " (xs.map (fun s => sq ++ s ++ sq)) ++ "\x7d"

/-- Build one `EvidenceSlide` for a slide/target pair. -/
def mkEvidenceEntry (slide : Slide) (evSourceFallback : String)
    (primary_pattern : String) (sorted_all : List String) (is_primary : Bool) :
    EvidenceSlide :=
  { slide_index := slide.index
    text := slide.text
    text_preview := pyPreview 200 slide.text
    match_pattern := if is_primary then primary_pattern else "secondary_reference"
    all_elements_in_slide := sorted_all
    is_primary_match := is_primary
    source_file := slide.source_file.getD evSourceFallback
    source_index := slide.source_index.getD slide.index }

/-- The per-slide body of the matching loop, exactly in source order:
blank-slide skip, section-header annotation, reference extraction,
no-reference classification, multi-element and matched counters, fan-out
with per-target dedup, unresolved-reference record. -/
def stepSlide (setIter : List String → List String) (evSourceFallback : String)
    (st : MatchState) (slide : Slide) : MatchState :=
  let text := slide.text
  if (pyStrip text).isEmpty then
    { st with stats := { st.stats with empty_slides := st.stats.empty_slides + 1 } }
  else
    let st := if is_section_header text then
        { st with stats :=
            { st.stats with section_headers := st.stats.section_headers + 1 } }
      else st
    let all_elements := get_all_elements text
    let primary := get_primary_element text
    if all_elements.isEmpty then
      { st with
        stats := { st.stats with unmatched_slides := st.stats.unmatched_slides + 1 }
        unmatched_slides := st.unmatched_slides ++
          [{ slide_index := slide.index
             text_preview := pyPreview 300 text
             reason := "No element reference found" }] }
    else
      let st := if 1 < all_elements.length then
          { st with stats :=
              { st.stats with multi_element_slides := st.stats.multi_element_slides + 1 } }
        else st
      let st := { st with stats :=
          { st.stats with matched_slides := st.stats.matched_slides + 1 } }
      let ms := extract_element_references text
      let primary_pattern := primaryPatternOf ms primary
      let iter := setIter all_elements
      let sorted_all := sortByKey element_to_float iter
      let keys := st.element_evidence.map (·.1)
      let pairs := slidePairsCore keys primary iter []
      let newEv := pairs.foldl
        (fun ev trip => appendEvidence ev trip.1
          (mkEvidenceEntry slide evSourceFallback primary_pattern sorted_all trip.2.2))
        st.element_evidence
      let st := { st with element_evidence := newEv }
      if pairs.isEmpty then
        { st with unmatched_slides := st.unmatched_slides ++
            [{ slide_index := slide.index
               text_preview := pyPreview 300 text
               reason := "Element(s) " ++ pySetRepr iter ++
                 " not found in elements list" }] }
      else st

/-- The initial accumulator: one empty evidence list per registry key, in
registry order; all counters zero except the slide total. -/
def matchStateInit (lookup : List (String × ElemInfo)) (nSlides : Nat) :
    MatchState :=
  { element_evidence := lookup.map (fun p => (p.1, ([] : List EvidenceSlide)))
    unmatched_slides := []
    stats :=
      { total_slides := nSlides, matched_slides := 0, unmatched_slides := 0
        section_headers := 0, empty_slides := 0, elements_with_evidence := 0
        elements_without_evidence := 0, multi_element_slides := 0 } }

/-- `element_evidence.get(elem_id, [])`. -/
def assocGetD (ev : List (String × List EvidenceSlide)) (k : String) :
    List EvidenceSlide :=
  match ev.find? (fun p => p.1 == k) with
  | some p => p.2
  | none => []

/-- The final pass over the registry (sorted by `element_to_float`):
build each `MatchedElement` and count elements with/without evidence. -/
def buildMatched (st : MatchState) (lookup : List (String × ElemInfo)) :
    List MatchedElement × Statistics :=
  (sortByKey (fun p => element_to_float p.1) lookup).foldl
    (fun acc item =>
      let evl := assocGetD st.element_evidence item.1
      let stats :=
        if evl.isEmpty then
          { acc.2 with elements_without_evidence := acc.2.elements_without_evidence + 1 }
        else
          { acc.2 with elements_with_evidence := acc.2.elements_with_evidence + 1 }
      (acc.1 ++
        [{ pi_element := item.1
           ask_look_for := item.2.askLookFor
           calibrator_notes := item.2.calibratorNotes
           evidence := evl
           evidence_count := evl.length }], stats))
    ([], st.stats)

/-- The `source_files` fallback of the metadata block (`if not
source_files:` also catches an empty list). -/
def metadataSourceFiles (ev : EvidenceData) : List String :=
  let multi := match ev.source_files with
    | some fs => if fs.isEmpty then none else some fs
    | none => none
  match multi with
  | some fs => fs
  | none =>
    let single := ev.source_file.getD "unknown"
    if single == "unknown" then [] else [single]

/-- `match_slides_to_elements`.  `setIter` supplies the iteration order of
each slide's reference set (fixed within one process); `now` is the
`datetime.now().isoformat()` value. -/
def match_slides_to_elements (evidence_data : EvidenceData)
    (elements_lookup : List (String × ElemInfo))
    (setIter : List String → List String) (now : String) : MatchingResult :=
  let slides := evidence_data.slides
  let evSourceFallback := evidence_data.source_file.getD "unknown"
  let st := slides.foldl (stepSlide setIter evSourceFallback)
    (matchStateInit elements_lookup slides.length)
  let final := buildMatched st elements_lookup
  { metadata :=
      { source_evidence_files := metadataSourceFiles evidence_data
        total_source_slides := evidence_data.total_slides.getD slides.length
        generated_at := now
        generator := "match_evidence_to_elements.py" }
    matched_elements := final.1
    unmatched_slides := st.unmatched_slides
    statistics := final.2 }

/-! ## `match_evidence.py`: the serializer -/

/-- One serialized evidence record (the `"Evidence"` array items). -/
structure SerializedEvidence where
  slide_index : Nat
  source_file : String
  source_index : Nat
  text_preview : String
  match_pattern : String
  all_elements_in_slide : List String
  is_primary_match : Bool
  full_text : String
deriving DecidableEq, Repr

/-- One serialized element (the `"matched_elements"` array items, with
`"PI-Element"` and the `"Calibrator instructions"` sub-object flattened
to fields). -/
structure SerializedElement where
  pi_element : String
  ask_look_for : String
  calibrator_notes : String
  evidence : List SerializedEvidence
  evidence_count : Nat
deriving DecidableEq, Repr

/-- The full serialized tree of `serialize_result`. -/
structure SerializedResult where
  metadata : Metadata
  statistics : Statistics
  matched_elements : List SerializedElement
  unmatched_slides : List UnmatchedRecord
deriving DecidableEq, Repr

/-- `serialize_result`: the pure reshaping into the wire structure. -/
def serialize_result (result : MatchingResult) : SerializedResult :=
  { metadata := result.metadata
    statistics := result.statistics
    matched_elements := result.matched_elements.map (fun elem =>
      { pi_element := elem.pi_element
        ask_look_for := elem.ask_look_for
        calibrator_notes := elem.calibrator_notes
        evidence := elem.evidence.map (fun ev =>
          { slide_index := ev.slide_index
            source_file := ev.source_file
            source_index := ev.source_index
            text_preview := ev.text_preview
            match_pattern := ev.match_pattern
            all_elements_in_slide := ev.all_elements_in_slide
            is_primary_match := ev.is_primary_match
            full_text := ev.text })
        evidence_count := elem.evidence_count })
    unmatched_slides := result.unmatched_slides }

/-! ## Character-level lemmas -/

/-- `Char.ofNat` round-trips on valid code points. -/
theorem charOfNat_toNat (m : Nat) (h : m < 55296) : (Char.ofNat m).toNat = m := by
  simp [Char.ofNat, Nat.isValidChar, Char.toNat, h, Char.ofNatAux]
  rfl

/-- The code point of `pyUpper c`. -/
theorem pyUpper_toNat (c : Char) :
    (pyUpper c).toNat =
      if 97 ≤ c.toNat ∧ c.toNat ≤ 122 then c.toNat - 32 else c.toNat := by
  unfold pyUpper
  split
  · next h => exact charOfNat_toNat _ (by omega)
  · rfl

/-- A letter is not whitespace. -/
theorem pySpace_eq_false_of_pyAlpha (c : Char) (h : pyAlpha c = true) :
    pySpace c = false := by
  simp only [pyAlpha, Bool.or_eq_true, Bool.and_eq_true, decide_eq_true_eq] at h
  simp only [pySpace, Bool.or_eq_false_iff, Bool.and_eq_false_iff,
    decide_eq_false_iff_not]
  omega

/-- Uppercasing a letter yields a letter. -/
theorem pyAlpha_pyUpper_of_pyAlpha (c : Char) (h : pyAlpha c = true) :
    pyAlpha (pyUpper c) = true := by
  simp only [pyAlpha, Bool.or_eq_true, Bool.and_eq_true, decide_eq_true_eq] at h ⊢
  rw [pyUpper_toNat]
  split <;> omega

/-- Uppercasing a letter yields something that is not whitespace. -/
theorem pySpace_pyUpper_eq_false (c : Char) (h : pyAlpha c = true) :
    pySpace (pyUpper c) = false :=
  pySpace_eq_false_of_pyAlpha _ (pyAlpha_pyUpper_of_pyAlpha c h)

/-- `pyUpper` is idempotent. -/
theorem pyUpper_pyUpper (c : Char) : pyUpper (pyUpper c) = pyUpper c := by
  by_cases h : 97 ≤ c.toNat ∧ c.toNat ≤ 122
  · have ht : (pyUpper c).toNat = c.toNat - 32 := by rw [pyUpper_toNat, if_pos h]
    rw [pyUpper, if_neg (by omega)]
  · rw [pyUpper, if_neg (by rw [pyUpper_toNat, if_neg h]; exact h)]

/-! ## Strip lemmas -/

/-- The head of a `dropWhile` residue fails the predicate. -/
theorem head_dropWhile_false {p : Char → Bool} :
    ∀ (l : List Char) (c : Char), (l.dropWhile p).head? = some c → p c = false := by
  intro l
  induction l with
  | nil => intro c h; simp [List.dropWhile] at h
  | cons x xs ih =>
    intro c h
    rw [List.dropWhile_cons] at h
    by_cases hx : p x
    · rw [if_pos hx] at h; exact ih c h
    · rw [if_neg hx] at h
      rw [List.head?_cons, Option.some_inj] at h
      rw [← h]
      exact Bool.eq_false_iff.mpr hx

/-- `dropWhile` is the identity when the head already fails the predicate. -/
theorem dropWhile_eq_self_of_head {p : Char → Bool} (l : List Char)
    (h : ∀ c, l.head? = some c → p c = false) : l.dropWhile p = l := by
  cases l with
  | nil => rfl
  | cons x xs =>
    rw [List.dropWhile_cons, if_neg]
    rw [h x rfl]
    simp

/-- A list whose two ends fail the whitespace test is already stripped. -/
theorem stripL_eq_self (l : List Char)
    (h1 : ∀ c, l.head? = some c → pySpace c = false)
    (h2 : ∀ c, l.getLast? = some c → pySpace c = false) : stripL l = l := by
  unfold stripL
  rw [dropWhile_eq_self_of_head l h1]
  rw [dropWhile_eq_self_of_head l.reverse
    (fun c hc => h2 c (by rwa [List.head?_reverse] at hc))]
  exact List.reverse_reverse l

/-- The head of a prefix is the head of the list. -/
theorem head?_of_isPrefix {l₁ l₂ : List Char} (h : l₁ <+: l₂) (c : Char)
    (hc : l₁.head? = some c) : l₂.head? = some c := by
  obtain ⟨t, ht⟩ := h
  subst ht
  cases l₁ with
  | nil => simp at hc
  | cons x xs => simpa using hc

/-- `stripL l` is a prefix of `l.dropWhile pySpace`. -/
theorem stripL_isPrefix (l : List Char) :
    stripL l <+: l.dropWhile pySpace := by
  have h : (l.dropWhile pySpace).reverse.dropWhile pySpace <:+
      (l.dropWhile pySpace).reverse := List.dropWhile_suffix pySpace
  have h2 := List.reverse_prefix.mpr h
  rwa [List.reverse_reverse] at h2

/-- The head of a stripped list fails the whitespace test. -/
theorem head_stripL (l : List Char) (c : Char) (h : (stripL l).head? = some c) :
    pySpace c = false :=
  head_dropWhile_false l c (head?_of_isPrefix (stripL_isPrefix l) c h)

/-- The last element of a stripped list fails the whitespace test. -/
theorem last_stripL (l : List Char) (c : Char) (h : (stripL l).getLast? = some c) :
    pySpace c = false := by
  unfold stripL at h
  rw [List.getLast?_reverse] at h
  exact head_dropWhile_false _ c h

/-! ## C8: idempotence of `normalize_element_id` -/

/-- Equation for `upLastL` on a list with no last element. -/
theorem upLastL_eq_nil {l : List Char} (hl : l.getLast? = none) :
    upLastL l = l := by
  unfold upLastL
  rw [hl]

/-- Equation for `upLastL` on a list with last element `c`. -/
theorem upLastL_eq_some {l : List Char} {c : Char} (hl : l.getLast? = some c) :
    upLastL l = if pyAlpha c then l.dropLast ++ [pyUpper c] else l := by
  unfold upLastL
  rw [hl]

/-- A nonempty `dropLast` pins down the head of the list. -/
theorem head?_of_dropLast {l : List Char} {x : Char} {xs : List Char}
    (h : l.dropLast = x :: xs) : l.head? = some x := by
  cases l with
  | nil => simp at h
  | cons y ys =>
    cases ys with
    | nil => simp at h
    | cons z zs =>
      rw [List.dropLast_cons₂] at h
      rw [List.cons.injEq] at h
      rw [List.head?_cons, h.1]

/-- The last element of `upLastL l`: unchanged or uppercased. -/
theorem getLast?_upLastL (l : List Char) :
    (upLastL l).getLast? = (l.getLast?).map
      (fun c => if pyAlpha c then pyUpper c else c) := by
  cases hl : l.getLast? with
  | none => rw [upLastL_eq_nil hl, hl]; rfl
  | some c =>
    rw [upLastL_eq_some hl]
    by_cases hc : pyAlpha c
    · rw [if_pos hc, List.getLast?_concat]
      simp [hc]
    · rw [if_neg hc, hl]
      simp [hc]

/-- The head of `upLastL l` is the head of `l` or a letter. -/
theorem head_upLastL (l : List Char) (c : Char) (h : (upLastL l).head? = some c) :
    l.head? = some c ∨ pyAlpha c = true := by
  cases hl : l.getLast? with
  | none => rw [upLastL_eq_nil hl] at h; exact Or.inl h
  | some a =>
    rw [upLastL_eq_some hl] at h
    by_cases ha : pyAlpha a
    · rw [if_pos ha] at h
      cases hd : l.dropLast with
      | nil =>
        rw [hd] at h
        rw [List.nil_append, List.head?_cons, Option.some_inj] at h
        exact Or.inr (h ▸ pyAlpha_pyUpper_of_pyAlpha a ha)
      | cons x xs =>
        rw [hd, List.cons_append, List.head?_cons, Option.some_inj] at h
        exact Or.inl (h ▸ head?_of_dropLast hd)
    · rw [if_neg ha] at h; exact Or.inl h

/-- `upLastL` is idempotent. -/
theorem upLastL_upLastL (l : List Char) : upLastL (upLastL l) = upLastL l := by
  cases hl : l.getLast? with
  | none => rw [upLastL_eq_nil hl, upLastL_eq_nil hl]
  | some c =>
    by_cases hc : pyAlpha c
    · have h1 : upLastL l = l.dropLast ++ [pyUpper c] := by
        rw [upLastL_eq_some hl, if_pos hc]
      rw [h1]
      have h2 : (l.dropLast ++ [pyUpper c]).getLast? = some (pyUpper c) :=
        List.getLast?_concat _
      rw [upLastL_eq_some h2, if_pos (pyAlpha_pyUpper_of_pyAlpha c hc),
        List.dropLast_concat, pyUpper_pyUpper]
    · have h1 : upLastL l = l := by rw [upLastL_eq_some hl, if_neg hc]
      rw [h1, h1]

/-- C8 core: the composite strip-then-uppercase map is idempotent at the
list level. -/
theorem normalizeL_idem (l : List Char) :
    upLastL (stripL (upLastL (stripL l))) = upLastL (stripL l) := by
  have hstrip : stripL (upLastL (stripL l)) = upLastL (stripL l) := by
    apply stripL_eq_self
    · intro c hc
      rcases head_upLastL _ c hc with h | h
      · exact head_stripL l c h
      · exact pySpace_eq_false_of_pyAlpha c h
    · intro c hc
      rw [getLast?_upLastL] at hc
      cases hg : (stripL l).getLast? with
      | none => rw [hg] at hc; simp at hc
      | some a =>
        rw [hg] at hc
        simp only [Option.map_some', Option.some_inj] at hc
        by_cases ha : pyAlpha a
        · rw [if_pos ha] at hc
          exact hc ▸ pySpace_pyUpper_eq_false a ha
        · rw [if_neg ha] at hc
          exact hc ▸ last_stripL l a hg
  rw [hstrip, upLastL_upLastL]

/-- C8: the id normalization function is idempotent — for every string,
`normalize_element_id (normalize_element_id s) = normalize_element_id s`. -/
theorem c8_normalize_element_id_idempotent (s : String) :
    normalize_element_id (normalize_element_id s) = normalize_element_id s :=
  congrArg String.mk (normalizeL_idem s.toList)

/-! ## C1: `get_primary_element` selection -/

/-- `any` agrees with definedness of `find?`. -/
theorem any_eq_isSome_find? {α : Type} (p : α → Bool) :
    ∀ l : List α, l.any p = (l.find? p).isSome := by
  intro l
  induction l with
  | nil => rfl
  | cons x xs ih =>
    cases hx : p x with
    | true => rw [List.any_cons, hx, Bool.true_or, List.find?_cons_of_pos _ hx]; rfl
    | false =>
      rw [List.any_cons, hx, Bool.false_or, ih,
        List.find?_cons_of_neg _ (by simp [hx])]

/-- The priority loop returns, for the first priority kind present among
the matches, the first match of that kind. -/
theorem priorityLoop_eq (ms : List (String × PatKind)) :
    ∀ pr : List PatKind,
      priorityLoop ms pr =
        (pr.find? (fun k => ms.any (fun m => m.2 == k))).bind
          (fun k => (ms.find? (fun m => m.2 == k)).map (·.1)) := by
  intro pr
  induction pr with
  | nil => rfl
  | cons k rest ih =>
    cases hf : ms.find? (fun m => m.2 == k) with
    | some m =>
      have hany : (ms.any fun m => m.2 == k) = true := by
        rw [any_eq_isSome_find?, hf]; rfl
      have hR : (k :: rest).find? (fun k => ms.any fun m => m.2 == k) = some k :=
        List.find?_cons_of_pos _ hany
      rw [priorityLoop, hf, hR]
      simp [hf]
    | none =>
      have hany : ¬ (ms.any fun m => m.2 == k) = true := by
        rw [any_eq_isSome_find?, hf]; simp
      have hR : (k :: rest).find? (fun k => ms.any fun m => m.2 == k) =
          rest.find? (fun k => ms.any fun m => m.2 == k) :=
        List.find?_cons_of_neg _ hany
      rw [priorityLoop, hf, hR]
      exact ih

/-- The selection rule exactly as the specification words it: `none` on no
matches; otherwise the first match (in extractor output order) whose kind
is the highest-priority kind present; the very first match as fallback. -/
def primaryRefSpec (text : String) : Option String :=
  let ms := extract_element_references text
  match ms with
  | [] => none
  | m0 :: _ =>
    match priorityOrder.find? (fun k => ms.any (fun m => m.2 == k)) with
    | some k => (ms.find? (fun m => m.2 == k)).map (·.1)
    | none => some m0.1

/-- Every pattern kind occurs in the priority list. -/
theorem patKind_mem_priorityOrder (k : PatKind) : k ∈ priorityOrder := by
  cases k <;> simp [priorityOrder]

/-- C1: `get_primary_element` returns `none` exactly when extraction is
empty, and otherwise the first match whose kind is the highest-priority
kind present (priority `arrow > nextArrow > slideTitle > explicitElement >
parentheses > piHeader`); moreover the `matches[0]` fallback branch is
unreachable, because some priority kind is always present among nonempty
matches. -/
theorem c1_get_primary_element_follows_priority (text : String) :
    get_primary_element text = primaryRefSpec text ∧
    (extract_element_references text ≠ [] →
      (priorityOrder.find?
        (fun k => (extract_element_references text).any (fun m => m.2 == k))).isSome) := by
  constructor
  · unfold get_primary_element primaryRefSpec
    cases hms : extract_element_references text with
    | nil => simp
    | cons m0 rest =>
      simp only [List.isEmpty_cons, Bool.false_eq_true, if_false]
      rw [priorityLoop_eq]
      cases hf : priorityOrder.find? (fun k => (m0 :: rest).any fun m => m.2 == k) with
      | some k =>
        have hk0 := List.find?_some hf
        have hk : ((m0 :: rest).any fun m => m.2 == k) = true := hk0
        rw [any_eq_isSome_find?] at hk
        obtain ⟨m, hm⟩ := Option.isSome_iff_exists.mp hk
        simp [hf, hm]
      | none => simp [hf]
  · intro hne
    cases hms : extract_element_references text with
    | nil => exact absurd hms hne
    | cons m0 rest =>
      have hany : (priorityOrder.any
          (fun k => (m0 :: rest).any (fun m => m.2 == k))) = true := by
        rw [List.any_eq_true]
        refine ⟨m0.2, patKind_mem_priorityOrder m0.2, ?_⟩
        rw [List.any_cons]
        simp
      rw [← any_eq_isSome_find?]
      exact hany

/-- C1 witness: the theorem applied at a concrete slide line, with the
nonemptiness hypothesis discharged by computation. -/
theorem c1_witness :
    get_primary_element "1.1 > ask" = primaryRefSpec "1.1 > ask" ∧
    (priorityOrder.find?
      (fun k => (extract_element_references "1.1 > ask").any (fun m => m.2 == k))).isSome :=
  ⟨(c1_get_primary_element_follows_priority "1.1 > ask").1,
   (c1_get_primary_element_follows_priority "1.1 > ask").2 (by decide)⟩

/-! ## C2: numeric/string id collision and the "2 >" slide -/

/-- C2 counterexample: the registry key built from the numeric input `2`
is `"2.0"`, but a slide whose text is `"2 >"` yields *no* extractor match
at all (the arrow pattern requires the `major.minor` shape), so the slide
resolves to nothing: its element's evidence stays empty and the slide is
recorded as "No element reference found" — refuting the claim that such a
slide resolves to the key `"2.0"`. -/
theorem c2_counterexample :
    extract_element_references "2 >" = [] ∧
    (match_slides_to_elements
        ⟨[⟨1, "2 >", none, none⟩], none, none, none⟩
        (build_elements_lookup [⟨some (PyId.num 2 ""), "ask", "note"⟩])
        id "T").matched_elements.map (fun m => (m.pi_element, m.evidence_count))
      = [("2.0", 0)] ∧
    (match_slides_to_elements
        ⟨[⟨1, "2 >", none, none⟩], none, none, none⟩
        (build_elements_lookup [⟨some (PyId.num 2 ""), "ask", "note"⟩])
        id "T").unmatched_slides = [⟨1, "2 >", "No element reference found"⟩] :=
  ⟨rfl, rfl, rfl⟩

/-- C2 as amended: id normalization does make the numeric input `2` and
the string `"2.0"` produce the same canonical key `"2.0"`; but a slide
mentioning `"2 >"` yields no extracted reference at all and attaches no
evidence, while a slide mentioning `"2.0 >"` does resolve to `"2.0"` and
attaches its evidence there as a primary arrow match. -/
theorem c2_amended_collision_requires_decimal_form :
    (build_elements_lookup [⟨some (PyId.num 2 ""), "ask", "note"⟩]).map (·.1)
      = ["2.0"] ∧
    (build_elements_lookup [⟨some (PyId.str "2.0"), "ask", "note"⟩]).map (·.1)
      = ["2.0"] ∧
    extract_element_references "2 >" = [] ∧
    (match_slides_to_elements
        ⟨[⟨1, "2.0 >", none, none⟩], none, none, none⟩
        (build_elements_lookup [⟨some (PyId.num 2 ""), "ask", "note"⟩])
        id "T").matched_elements.map
          (fun m => (m.pi_element,
            m.evidence.map (fun e => (e.is_primary_match, e.match_pattern))))
      = [("2.0", [(true, "arrow_format")])] :=
  ⟨rfl, rfl, rfl, rfl⟩

/-! ## C4: determinism up to the timestamp -/

/-- C4: for a fixed input (and the process-fixed set-iteration order),
two runs of `serialize_result ∘ match_slides_to_elements` differing only
in the wall clock agree on every serialized field except
`metadata.generated_at`: statistics, matched elements (with their
evidence lists in order, `match_pattern`, `is_primary_match`,
`all_elements_in_slide`), unmatched records, and the other metadata
fields. -/
theorem c4_serialize_deterministic_except_timestamp (ev : EvidenceData)
    (lookup : List (String × ElemInfo)) (setIter : List String → List String)
    (t1 t2 : String) :
    (serialize_result (match_slides_to_elements ev lookup setIter t1)).statistics =
      (serialize_result (match_slides_to_elements ev lookup setIter t2)).statistics ∧
    (serialize_result (match_slides_to_elements ev lookup setIter t1)).matched_elements =
      (serialize_result (match_slides_to_elements ev lookup setIter t2)).matched_elements ∧
    (serialize_result (match_slides_to_elements ev lookup setIter t1)).unmatched_slides =
      (serialize_result (match_slides_to_elements ev lookup setIter t2)).unmatched_slides ∧
    (serialize_result (match_slides_to_elements ev lookup setIter t1)).metadata.source_evidence_files =
      (serialize_result (match_slides_to_elements ev lookup setIter t2)).metadata.source_evidence_files ∧
    (serialize_result (match_slides_to_elements ev lookup setIter t1)).metadata.total_source_slides =
      (serialize_result (match_slides_to_elements ev lookup setIter t2)).metadata.total_source_slides ∧
    (serialize_result (match_slides_to_elements ev lookup setIter t1)).metadata.generator =
      (serialize_result (match_slides_to_elements ev lookup setIter t2)).metadata.generator :=
  ⟨rfl, rfl, rfl, rfl, rfl, rfl⟩

/-! ## C3: output ordering of `matched_elements` -/

/-- Members of an insertion are the new element or old members. -/
theorem mem_insertByKey {α : Type} (k : α → ℚ) (x b : α) :
    ∀ l : List α, b ∈ insertByKey k x l → b = x ∨ b ∈ l := by
  intro l
  induction l with
  | nil => intro h; rw [insertByKey] at h; exact Or.inl (List.mem_singleton.mp h)
  | cons y ys ih =>
    intro h
    rw [insertByKey] at h
    by_cases hle : k y ≤ k x
    · rw [if_pos hle] at h
      rcases List.mem_cons.mp h with h | h
      · exact Or.inr (h ▸ List.mem_cons_self y ys)
      · rcases ih h with h | h
        · exact Or.inl h
        · exact Or.inr (List.mem_cons_of_mem _ h)
    · rw [if_neg hle] at h
      rcases List.mem_cons.mp h with h | h
      · exact Or.inl h
      · exact Or.inr h

/-- Inserting into a key-sorted list keeps it key-sorted. -/
theorem pairwise_insertByKey {α : Type} (k : α → ℚ) (x : α) (l : List α)
    (h : l.Pairwise (fun a b => k a ≤ k b)) :
    (insertByKey k x l).Pairwise (fun a b => k a ≤ k b) := by
  induction l with
  | nil => simp [insertByKey]
  | cons y ys ih =>
    rw [List.pairwise_cons] at h
    obtain ⟨hy, hys⟩ := h
    rw [insertByKey]
    by_cases hle : k y ≤ k x
    · rw [if_pos hle, List.pairwise_cons]
      refine ⟨?_, ih hys⟩
      intro b hb
      rcases mem_insertByKey k x b ys hb with rfl | hb
      · exact hle
      · exact hy b hb
    · rw [if_neg hle, List.pairwise_cons]
      have hxy : k x ≤ k y := le_of_not_le hle
      refine ⟨?_, List.pairwise_cons.mpr ⟨hy, hys⟩⟩
      intro b hb
      rcases List.mem_cons.mp hb with rfl | hb
      · exact hxy
      · exact le_trans hxy (hy b hb)

/-- The stable insertion sort produces a key-sorted list. -/
theorem pairwise_sortByKey {α : Type} (k : α → ℚ) (xs : List α) :
    (sortByKey k xs).Pairwise (fun a b => k a ≤ k b) := by
  unfold sortByKey
  suffices h : ∀ acc : List α, acc.Pairwise (fun a b => k a ≤ k b) →
      (xs.foldl (fun acc x => insertByKey k x acc) acc).Pairwise
        (fun a b => k a ≤ k b) by
    exact h [] (List.Pairwise.nil)
  induction xs with
  | nil => intro acc h; exact h
  | cons x xs ih => intro acc h; exact ih _ (pairwise_insertByKey k x acc h)

/-- The element list built by the final pass is the sorted registry,
mapped to `MatchedElement` records. -/
theorem buildMatched_fst (st : MatchState) (lookup : List (String × ElemInfo)) :
    (buildMatched st lookup).1 =
      (sortByKey (fun p => element_to_float p.1) lookup).map
        (fun item =>
          { pi_element := item.1
            ask_look_for := item.2.askLookFor
            calibrator_notes := item.2.calibratorNotes
            evidence := assocGetD st.element_evidence item.1
            evidence_count := (assocGetD st.element_evidence item.1).length }) := by
  unfold buildMatched
  generalize sortByKey (fun p => element_to_float p.1) lookup = xs
  suffices h : ∀ (acc : List MatchedElement) (s : Statistics),
      (xs.foldl
        (fun acc item =>
          let evl := assocGetD st.element_evidence item.1
          let stats :=
            if evl.isEmpty then
              { acc.2 with elements_without_evidence := acc.2.elements_without_evidence + 1 }
            else
              { acc.2 with elements_with_evidence := acc.2.elements_with_evidence + 1 }
          (acc.1 ++
            [{ pi_element := item.1
               ask_look_for := item.2.askLookFor
               calibrator_notes := item.2.calibratorNotes
               evidence := evl
               evidence_count := evl.length }], stats))
        (acc, s)).1 = acc ++ xs.map
          (fun item =>
            { pi_element := item.1
              ask_look_for := item.2.askLookFor
              calibrator_notes := item.2.calibratorNotes
              evidence := assocGetD st.element_evidence item.1
              evidence_count := (assocGetD st.element_evidence item.1).length }) by
    simpa using h [] st.stats
  induction xs with
  | nil => intro acc s; simp
  | cons x xs ih =>
    intro acc s
    rw [List.foldl_cons, List.map_cons]
    rw [ih]
    simp

/-- The sort key exactly as the claim words it: the numeric value of the
id, a hierarchical id with more than one dot being reduced to its leading
`major.minor` prefix. -/
def claimLeadingValue (s : String) : ℚ :=
  let l := s.toList
  let d1 := l.takeWhile pyDigit
  let r1 := l.dropWhile pyDigit
  match r1 with
  | '.' :: r2 =>
    let d2 := r2.takeWhile pyDigit
    mkRat ((digitsVal d1 * 10 ^ d2.length + digitsVal d2 : Nat) : Int) (10 ^ d2.length)
  | _ => mkRat (digitsVal d1 : Int) 1

/-- C3 counterexample: with registry ids `9.4.1` and `1.1`, the produced
`matched_elements` order is `["9.4.1", "1.1"]` — but under the claim's
sort key (leading numeric prefix, so `9.4` and `1.1`) that order is not
ascending.  The code keys `"9.4.1"` at `0.0` because `float("9.4.1")`
raises and `element_to_float` falls back to `0.0`; it does not reduce to
the leading prefix. -/
theorem c3_counterexample :
    (match_slides_to_elements ⟨[], none, none, none⟩
        (build_elements_lookup
          [⟨some (PyId.str "9.4.1"), "", ""⟩, ⟨some (PyId.str "1.1"), "", ""⟩])
        id "T").matched_elements.map (fun m => m.pi_element) = ["9.4.1", "1.1"] ∧
    element_to_float "9.4.1" = mkRat 0 1 ∧
    ¬ (["9.4.1", "1.1"].Pairwise
        (fun a b => claimLeadingValue a ≤ claimLeadingValue b)) :=
  ⟨rfl, rfl, by decide⟩

/-- C3 as amended: `matched_elements` is sorted ascending by
`element_to_float` of the id — the id with any trailing letter run
stripped, parsed as a decimal, and `0.0` when it does not parse (in
particular a hierarchical id with a second dot is keyed `0.0` and sorts
first, not by its leading numeric prefix). -/
theorem c3_amended_sorted_by_element_to_float (ev : EvidenceData)
    (lookup : List (String × ElemInfo)) (setIter : List String → List String)
    (now : String) :
    ((match_slides_to_elements ev lookup setIter now).matched_elements).Pairwise
      (fun a b => element_to_float a.pi_element ≤ element_to_float b.pi_element) := by
  have h : (match_slides_to_elements ev lookup setIter now).matched_elements =
      (buildMatched
        (ev.slides.foldl (stepSlide setIter (ev.source_file.getD "unknown"))
          (matchStateInit lookup ev.slides.length)) lookup).1 := rfl
  rw [h, buildMatched_fst]
  exact List.pairwise_map.mpr (pairwise_sortByKey _ _)

/-! ## C6 and C9: per-slide fan-out properties -/

/-- Equation: an unresolvable id is skipped. -/
theorem slidePairsCore_cons_none {keys : List String} {primary : Option String}
    {e : String} {rest claimed : List String}
    (h : resolveTarget keys e = none) :
    slidePairsCore keys primary (e :: rest) claimed =
      slidePairsCore keys primary rest claimed := by
  rw [slidePairsCore, h]

/-- Equation: an id whose target is already claimed is skipped. -/
theorem slidePairsCore_cons_mem {keys : List String} {primary : Option String}
    {e t : String} {rest claimed : List String}
    (h : resolveTarget keys e = some t) (ht : t ∈ claimed) :
    slidePairsCore keys primary (e :: rest) claimed =
      slidePairsCore keys primary rest claimed := by
  rw [slidePairsCore, h]
  exact if_pos ht

/-- Equation: an id resolving to a fresh target emits one triple. -/
theorem slidePairsCore_cons_new {keys : List String} {primary : Option String}
    {e t : String} {rest claimed : List String}
    (h : resolveTarget keys e = some t) (ht : t ∉ claimed) :
    slidePairsCore keys primary (e :: rest) claimed =
      (t, e, primary == some e) :: slidePairsCore keys primary rest (t :: claimed) := by
  rw [slidePairsCore, h]
  exact if_neg ht

/-- The targets emitted by the per-slide loop avoid the claimed set and
repeat no target. -/
theorem slidePairsCore_targets_nodup (keys : List String)
    (primary : Option String) :
    ∀ (iter claimed : List String),
      (∀ t ∈ (slidePairsCore keys primary iter claimed).map (·.1), t ∉ claimed) ∧
      ((slidePairsCore keys primary iter claimed).map (·.1)).Nodup := by
  intro iter
  induction iter with
  | nil =>
    intro claimed
    constructor
    · intro t ht; simp [slidePairsCore] at ht
    · simp [slidePairsCore]
  | cons e rest ih =>
    intro claimed
    cases hr : resolveTarget keys e with
    | none => rw [slidePairsCore_cons_none hr]; exact ih claimed
    | some t =>
      by_cases ht : t ∈ claimed
      · rw [slidePairsCore_cons_mem hr ht]; exact ih claimed
      · rw [slidePairsCore_cons_new hr ht]
        constructor
        · intro t' ht'
          rw [List.map_cons, List.mem_cons] at ht'
          rcases ht' with rfl | ht'
          · exact ht
          · intro hc
            exact (ih (t :: claimed)).1 t' ht' (List.mem_cons_of_mem _ hc)
        · rw [List.map_cons, List.nodup_cons]
          refine ⟨?_, (ih (t :: claimed)).2⟩
          intro hc
          exact (ih (t :: claimed)).1 t hc (List.mem_cons_self t claimed)

/-- C6: within a single slide, each resolved registry target receives at
most one evidence entry (the emitted target list has no duplicates, for
any set-iteration order); concretely, a slide referencing both `2.1` and
`2.1A` against a registry holding only `2.1` yields exactly one
`EvidenceEntry` under `"2.1"`, whichever way the reference set is
enumerated. -/
theorem c6_per_slide_target_dedup :
    (∀ (keys : List String) (primary : Option String) (iter : List String),
      ((slidePairsCore keys primary iter []).map (·.1)).Nodup) ∧
    (match_slides_to_elements
        ⟨[⟨1, "2.1 > see 2.1A >", none, none⟩], none, none, none⟩
        (build_elements_lookup [⟨some (PyId.str "2.1"), "ask", "note"⟩])
        id "T").matched_elements.map (fun m => (m.pi_element, m.evidence_count))
      = [("2.1", 1)] ∧
    (match_slides_to_elements
        ⟨[⟨1, "2.1 > see 2.1A >", none, none⟩], none, none, none⟩
        (build_elements_lookup [⟨some (PyId.str "2.1"), "ask", "note"⟩])
        List.reverse "T").matched_elements.map (fun m => (m.pi_element, m.evidence_count))
      = [("2.1", 1)] :=
  ⟨fun keys primary iter => (slidePairsCore_targets_nodup keys primary iter []).2,
   rfl, rfl⟩

/-- Once the primary id's target is already claimed, no later iteration
step can emit a primary-marked entry. -/
theorem slidePairsCore_primary_count_zero (keys : List String) (p tp : String)
    (hres : resolveTarget keys p = some tp) :
    ∀ (iter claimed : List String), tp ∈ claimed →
      ((slidePairsCore keys (some p) iter claimed).countP
        (fun trip => trip.2.2)) = 0 := by
  intro iter
  induction iter with
  | nil => intro claimed _; simp [slidePairsCore]
  | cons e rest ih =>
    intro claimed hmem
    cases hr : resolveTarget keys e with
    | none => rw [slidePairsCore_cons_none hr]; exact ih claimed hmem
    | some t =>
      by_cases ht : t ∈ claimed
      · rw [slidePairsCore_cons_mem hr ht]; exact ih claimed hmem
      · rw [slidePairsCore_cons_new hr ht, List.countP_cons]
        have he : ¬ (e = p) := by
          intro h
          subst h
          rw [hres] at hr
          injection hr with h2
          exact ht (h2 ▸ hmem)
        have hflag : ¬ (((some p == some e) : Bool) = true) := by
          simp only [beq_iff_eq, Option.some_inj]
          exact fun h => he h.symm
        rw [if_neg hflag, Nat.add_zero]
        exact ih (t :: claimed) (List.mem_cons_of_mem _ hmem)

/-- At most one primary-marked entry is emitted per slide, for any
iteration order (even a degenerate one). -/
theorem slidePairsCore_primary_count_le_one (keys : List String)
    (primary : Option String) :
    ∀ (iter claimed : List String),
      ((slidePairsCore keys primary iter claimed).countP
        (fun trip => trip.2.2)) ≤ 1 := by
  intro iter
  induction iter with
  | nil => intro claimed; simp [slidePairsCore]
  | cons e rest ih =>
    intro claimed
    cases hr : resolveTarget keys e with
    | none => rw [slidePairsCore_cons_none hr]; exact ih claimed
    | some t =>
      by_cases ht : t ∈ claimed
      · rw [slidePairsCore_cons_mem hr ht]; exact ih claimed
      · rw [slidePairsCore_cons_new hr ht, List.countP_cons]
        cases hfl : ((primary == some e) : Bool) with
        | false =>
          have hc : ¬ ((t, e, false).2.2 = true) := by simp
          rw [if_neg hc, Nat.add_zero]
          exact ih (t :: claimed)
        | true =>
          have hpe : primary = some e := by rwa [beq_iff_eq] at hfl
          rw [hpe]
          have h0 := slidePairsCore_primary_count_zero keys e t hr rest
            (t :: claimed) (List.mem_cons_self t claimed)
          rw [h0]
          simp

/-- Every emitted primary flag is the comparison of the raw id with the
primary reference. -/
theorem slidePairsCore_flag (keys : List String) (primary : Option String) :
    ∀ (iter claimed : List String) (trip : String × String × Bool),
      trip ∈ slidePairsCore keys primary iter claimed →
        trip.2.2 = (primary == some trip.2.1) := by
  intro iter
  induction iter with
  | nil => intro claimed trip h; simp [slidePairsCore] at h
  | cons e rest ih =>
    intro claimed trip h
    cases hr : resolveTarget keys e with
    | none => rw [slidePairsCore_cons_none hr] at h; exact ih claimed trip h
    | some t =>
      by_cases ht : t ∈ claimed
      · rw [slidePairsCore_cons_mem hr ht] at h; exact ih claimed trip h
      · rw [slidePairsCore_cons_new hr ht, List.mem_cons] at h
        rcases h with rfl | h
        · rfl
        · exact ih (t :: claimed) trip h

/-- C9: among all evidence entries one slide contributes, at most one is
primary-marked, and the mark is exactly "the producing raw id equals the
primary reference"; a slide can produce evidence with zero primary marks —
concretely, when the set order presents `2.1A` before `2.1`, the raw id
`2.1A` claims the target `2.1` first, so the slide's single entry carries
`is_primary_match = false`. -/
theorem c9_at_most_one_primary_entry_per_slide :
    (∀ (keys : List String) (primary : Option String) (iter : List String),
      ((slidePairsCore keys primary iter []).countP
        (fun trip => trip.2.2)) ≤ 1) ∧
    (∀ (keys : List String) (primary : Option String) (iter claimed : List String)
      (trip : String × String × Bool),
      trip ∈ slidePairsCore keys primary iter claimed →
        trip.2.2 = (primary == some trip.2.1)) ∧
    (match_slides_to_elements
        ⟨[⟨1, "2.1 > see 2.1A >", none, none⟩], none, none, none⟩
        (build_elements_lookup [⟨some (PyId.str "2.1"), "ask", "note"⟩])
        List.reverse "T").matched_elements.map
          (fun m => m.evidence.map (fun e => e.is_primary_match)) = [[false]] :=
  ⟨fun keys primary iter => slidePairsCore_primary_count_le_one keys primary iter [],
   fun keys primary iter claimed trip h => slidePairsCore_flag keys primary iter claimed trip h,
   rfl⟩

/-! ## C5 and C10: slide accounting -/

/-- A blank slide (`not text.strip()`). -/
def slideBlank (s : Slide) : Bool := (pyStrip s.text).isEmpty

/-- A non-blank slide with no extracted reference. -/
def slideNoRef (s : Slide) : Bool :=
  !slideBlank s && (get_all_elements s.text).isEmpty

/-- A non-blank slide with at least one extracted reference. -/
def slideHasRef (s : Slide) : Bool :=
  !slideBlank s && !(get_all_elements s.text).isEmpty

/-- A slide whose references are non-empty but resolve to no registry key
under the given iteration order and key list. -/
def slideUnresolved (setIter : List String → List String) (K : List String)
    (s : Slide) : Bool :=
  slideHasRef s &&
    (slidePairsCore K (get_primary_element s.text)
      (setIter (get_all_elements s.text)) []).isEmpty

/-- `appendEvidence` never changes the key list. -/
theorem appendEvidence_keys (ev : List (String × List EvidenceSlide))
    (t : String) (e : EvidenceSlide) :
    (appendEvidence ev t e).map (·.1) = ev.map (·.1) := by
  unfold appendEvidence
  induction ev with
  | nil => rfl
  | cons p ps ih =>
    simp only [List.map_cons, ih]
    by_cases hp : (p.1 == t) = true
    · rw [if_pos hp]
    · rw [if_neg hp]

/-- Folding evidence appends never changes the key list. -/
theorem foldl_appendEvidence_keys
    (g : String × String × Bool → EvidenceSlide) :
    ∀ (pairs : List (String × String × Bool))
      (ev : List (String × List EvidenceSlide)),
      ((pairs.foldl (fun ev trip => appendEvidence ev trip.1 (g trip)) ev).map (·.1))
        = ev.map (·.1) := by
  intro pairs
  induction pairs with
  | nil => intro ev; rfl
  | cons trip rest ih =>
    intro ev
    rw [List.foldl_cons, ih, appendEvidence_keys]

/-- One matching step never changes the registry key list. -/
theorem stepSlide_keys (setIter : List String → List String) (evSF : String)
    (st : MatchState) (s : Slide) :
    (stepSlide setIter evSF st s).element_evidence.map (·.1) =
      st.element_evidence.map (·.1) := by
  simp only [stepSlide]
  repeat' split
  all_goals simp [foldl_appendEvidence_keys]

/-- One matching step never changes the slide total. -/
theorem stepSlide_total (setIter : List String → List String) (evSF : String)
    (st : MatchState) (s : Slide) :
    (stepSlide setIter evSF st s).stats.total_slides = st.stats.total_slides := by
  simp only [stepSlide]
  repeat' split
  all_goals rfl

/-- One matching step adds exactly one to
`empty_slides + unmatched_slides + matched_slides`. -/
theorem stepSlide_sumEUM (setIter : List String → List String) (evSF : String)
    (st : MatchState) (s : Slide) :
    (stepSlide setIter evSF st s).stats.empty_slides +
      (stepSlide setIter evSF st s).stats.unmatched_slides +
      (stepSlide setIter evSF st s).stats.matched_slides =
    st.stats.empty_slides + st.stats.unmatched_slides +
      st.stats.matched_slides + 1 := by
  simp only [stepSlide]
  repeat' split
  all_goals simp
  all_goals omega

/-- One matching step bumps the unmatched counter exactly for a non-blank
slide with no extracted reference. -/
theorem stepSlide_unmatched_stat (setIter : List String → List String)
    (evSF : String) (st : MatchState) (s : Slide) :
    (stepSlide setIter evSF st s).stats.unmatched_slides =
      st.stats.unmatched_slides + (if slideNoRef s then 1 else 0) := by
  simp only [stepSlide]
  repeat' split
  all_goals simp_all [slideNoRef, slideBlank]

/-- One matching step bumps the matched counter exactly for a non-blank
slide with at least one extracted reference. -/
theorem stepSlide_matched_stat (setIter : List String → List String)
    (evSF : String) (st : MatchState) (s : Slide) :
    (stepSlide setIter evSF st s).stats.matched_slides =
      st.stats.matched_slides + (if slideHasRef s then 1 else 0) := by
  simp only [stepSlide]
  repeat' split
  all_goals simp_all [slideHasRef, slideBlank]

/-- One matching step appends one unmatched record exactly for a no-reference
slide or a slide whose references all fail to resolve. -/
theorem stepSlide_unmatched_len (setIter : List String → List String)
    (evSF : String) (K : List String) (st : MatchState) (s : Slide)
    (hK : st.element_evidence.map (·.1) = K) :
    (stepSlide setIter evSF st s).unmatched_slides.length =
      st.unmatched_slides.length + (if slideNoRef s then 1 else 0) +
      (if slideUnresolved setIter K s then 1 else 0) := by
  simp only [stepSlide]
  repeat' split
  all_goals simp_all [slideNoRef, slideHasRef, slideUnresolved, slideBlank]

/-- Fold form of `stepSlide_total`. -/
theorem foldl_stepSlide_total (setIter : List String → List String)
    (evSF : String) :
    ∀ (slides : List Slide) (st : MatchState),
      ((slides.foldl (stepSlide setIter evSF) st).stats.total_slides)
        = st.stats.total_slides := by
  intro slides
  induction slides with
  | nil => intro st; rfl
  | cons s rest ih =>
    intro st
    rw [List.foldl_cons, ih, stepSlide_total]

/-- Fold form of `stepSlide_sumEUM`. -/
theorem foldl_stepSlide_sumEUM (setIter : List String → List String)
    (evSF : String) :
    ∀ (slides : List Slide) (st : MatchState),
      ((slides.foldl (stepSlide setIter evSF) st).stats.empty_slides +
       (slides.foldl (stepSlide setIter evSF) st).stats.unmatched_slides +
       (slides.foldl (stepSlide setIter evSF) st).stats.matched_slides)
        = st.stats.empty_slides + st.stats.unmatched_slides +
          st.stats.matched_slides + slides.length := by
  intro slides
  induction slides with
  | nil => intro st; rfl
  | cons s rest ih =>
    intro st
    rw [List.foldl_cons, ih, stepSlide_sumEUM, List.length_cons]
    omega

/-- Fold form of `stepSlide_unmatched_stat`. -/
theorem foldl_stepSlide_unmatched_stat (setIter : List String → List String)
    (evSF : String) :
    ∀ (slides : List Slide) (st : MatchState),
      ((slides.foldl (stepSlide setIter evSF) st).stats.unmatched_slides)
        = st.stats.unmatched_slides + slides.countP slideNoRef := by
  intro slides
  induction slides with
  | nil => intro st; simp
  | cons s rest ih =>
    intro st
    rw [List.foldl_cons, ih, stepSlide_unmatched_stat, List.countP_cons]
    split_ifs <;> omega

/-- Fold form of `stepSlide_matched_stat`. -/
theorem foldl_stepSlide_matched_stat (setIter : List String → List String)
    (evSF : String) :
    ∀ (slides : List Slide) (st : MatchState),
      ((slides.foldl (stepSlide setIter evSF) st).stats.matched_slides)
        = st.stats.matched_slides + slides.countP slideHasRef := by
  intro slides
  induction slides with
  | nil => intro st; simp
  | cons s rest ih =>
    intro st
    rw [List.foldl_cons, ih, stepSlide_matched_stat, List.countP_cons]
    split_ifs <;> omega

/-- Fold form of `stepSlide_unmatched_len`. -/
theorem foldl_stepSlide_unmatched_len (setIter : List String → List String)
    (evSF : String) (K : List String) :
    ∀ (slides : List Slide) (st : MatchState),
      st.element_evidence.map (·.1) = K →
      ((slides.foldl (stepSlide setIter evSF) st).unmatched_slides.length)
        = st.unmatched_slides.length + slides.countP slideNoRef +
          slides.countP (slideUnresolved setIter K) := by
  intro slides
  induction slides with
  | nil => intro st _; simp
  | cons s rest ih =>
    intro st hK
    rw [List.foldl_cons, ih _ (by rw [stepSlide_keys, hK]),
      stepSlide_unmatched_len setIter evSF K st s hK,
      List.countP_cons, List.countP_cons]
    split_ifs <;> omega

/-- The final per-element pass touches only the with/without-evidence
counters: the four slide counters survive unchanged. -/
theorem buildMatched_stats (st : MatchState) (lookup : List (String × ElemInfo)) :
    (buildMatched st lookup).2.total_slides = st.stats.total_slides ∧
    (buildMatched st lookup).2.empty_slides = st.stats.empty_slides ∧
    (buildMatched st lookup).2.unmatched_slides = st.stats.unmatched_slides ∧
    (buildMatched st lookup).2.matched_slides = st.stats.matched_slides := by
  unfold buildMatched
  generalize sortByKey (fun p => element_to_float p.1) lookup = xs
  suffices h : ∀ (p : List MatchedElement × Statistics),
      ((xs.foldl
        (fun acc item =>
          let evl := assocGetD st.element_evidence item.1
          let stats :=
            if evl.isEmpty then
              { acc.2 with elements_without_evidence := acc.2.elements_without_evidence + 1 }
            else
              { acc.2 with elements_with_evidence := acc.2.elements_with_evidence + 1 }
          (acc.1 ++
            [{ pi_element := item.1
               ask_look_for := item.2.askLookFor
               calibrator_notes := item.2.calibratorNotes
               evidence := evl
               evidence_count := evl.length }], stats)) p).2.total_slides
          = p.2.total_slides) ∧
      ((xs.foldl _ p).2.empty_slides = p.2.empty_slides) ∧
      ((xs.foldl _ p).2.unmatched_slides = p.2.unmatched_slides) ∧
      ((xs.foldl _ p).2.matched_slides = p.2.matched_slides) by
    exact h ([], st.stats)
  induction xs with
  | nil => intro p; exact ⟨rfl, rfl, rfl, rfl⟩
  | cons x rest ih =>
    intro p
    rw [List.foldl_cons]
    obtain ⟨h1, h2, h3, h4⟩ := ih _
    refine ⟨h1.trans ?_, h2.trans ?_, h3.trans ?_, h4.trans ?_⟩
    all_goals dsimp only
    all_goals split <;> rfl

/-- C5: every slide increments exactly one of `empty_slides`,
`unmatched_slides`, `matched_slides`, so the three always sum to
`total_slides`, which is the number of input slides. -/
theorem c5_slide_counters_partition (ev : EvidenceData)
    (lookup : List (String × ElemInfo)) (setIter : List String → List String)
    (now : String) :
    (match_slides_to_elements ev lookup setIter now).statistics.empty_slides +
      (match_slides_to_elements ev lookup setIter now).statistics.unmatched_slides +
      (match_slides_to_elements ev lookup setIter now).statistics.matched_slides =
      (match_slides_to_elements ev lookup setIter now).statistics.total_slides ∧
    (match_slides_to_elements ev lookup setIter now).statistics.total_slides =
      ev.slides.length := by
  have hstat : (match_slides_to_elements ev lookup setIter now).statistics =
      (buildMatched
        (ev.slides.foldl (stepSlide setIter (ev.source_file.getD "unknown"))
          (matchStateInit lookup ev.slides.length)) lookup).2 := rfl
  obtain ⟨hT, hE, hU, hM⟩ := buildMatched_stats
    (ev.slides.foldl (stepSlide setIter (ev.source_file.getD "unknown"))
      (matchStateInit lookup ev.slides.length)) lookup
  rw [hstat, hT, hE, hU, hM]
  constructor
  · rw [foldl_stepSlide_sumEUM, foldl_stepSlide_total]
    show 0 + 0 + 0 + ev.slides.length = ev.slides.length
    omega
  · rw [foldl_stepSlide_total]
    rfl

/-- C10: the `unmatched_slides` statistic counts only slides with no
extracted reference at all; a slide whose references are non-empty but
all unresolvable is counted in `matched_slides` yet still appended to the
`unmatched_slides` list, so the counter can be strictly smaller than the
list (concretely 1 against a list of length 2). -/
theorem c10_unresolved_slides_counted_as_matched (ev : EvidenceData)
    (lookup : List (String × ElemInfo)) (setIter : List String → List String)
    (now : String) :
    ((match_slides_to_elements ev lookup setIter now).statistics.unmatched_slides =
      ev.slides.countP slideNoRef ∧
     (match_slides_to_elements ev lookup setIter now).statistics.matched_slides =
      ev.slides.countP slideHasRef ∧
     (match_slides_to_elements ev lookup setIter now).unmatched_slides.length =
      ev.slides.countP slideNoRef +
        ev.slides.countP (slideUnresolved setIter (lookup.map (·.1)))) ∧
    ((match_slides_to_elements
        ⟨[⟨1, "zzz", none, none⟩, ⟨2, "9.9 >", none, none⟩], none, none, none⟩
        (build_elements_lookup [⟨some (PyId.str "1.1"), "", ""⟩])
        id "T").statistics.unmatched_slides = 1 ∧
     (match_slides_to_elements
        ⟨[⟨1, "zzz", none, none⟩, ⟨2, "9.9 >", none, none⟩], none, none, none⟩
        (build_elements_lookup [⟨some (PyId.str "1.1"), "", ""⟩])
        id "T").unmatched_slides.length = 2) := by
  refine ⟨⟨?_, ?_, ?_⟩, rfl, rfl⟩
  · have hstat : (match_slides_to_elements ev lookup setIter now).statistics =
        (buildMatched
          (ev.slides.foldl (stepSlide setIter (ev.source_file.getD "unknown"))
            (matchStateInit lookup ev.slides.length)) lookup).2 := rfl
    rw [hstat,
      (buildMatched_stats
        (ev.slides.foldl (stepSlide setIter (ev.source_file.getD "unknown"))
          (matchStateInit lookup ev.slides.length)) lookup).2.2.1,
      foldl_stepSlide_unmatched_stat]
    show 0 + ev.slides.countP slideNoRef = ev.slides.countP slideNoRef
    omega
  · have hstat : (match_slides_to_elements ev lookup setIter now).statistics =
        (buildMatched
          (ev.slides.foldl (stepSlide setIter (ev.source_file.getD "unknown"))
            (matchStateInit lookup ev.slides.length)) lookup).2 := rfl
    rw [hstat,
      (buildMatched_stats
        (ev.slides.foldl (stepSlide setIter (ev.source_file.getD "unknown"))
          (matchStateInit lookup ev.slides.length)) lookup).2.2.2,
      foldl_stepSlide_matched_stat]
    show 0 + ev.slides.countP slideHasRef = ev.slides.countP slideHasRef
    omega
  · have hlist : (match_slides_to_elements ev lookup setIter now).unmatched_slides =
        (ev.slides.foldl (stepSlide setIter (ev.source_file.getD "unknown"))
          (matchStateInit lookup ev.slides.length)).unmatched_slides := rfl
    rw [hlist, foldl_stepSlide_unmatched_len setIter (ev.source_file.getD "unknown")
      (lookup.map (·.1)) ev.slides (matchStateInit lookup ev.slides.length)
      (by rw [matchStateInit, List.map_map]; rfl)]
    show 0 + ev.slides.countP slideNoRef + _ = _
    omega

/-! ## C7: the registry builder -/

/-- `lookup.get(k)`-style access used to state registry facts. -/
def lookupFind (m : List (String × ElemInfo)) (k : String) : Option ElemInfo :=
  (m.find? (fun p => p.1 == k)).map (·.2)

/-- The last definition whose (normalized) id is `k` — the one
last-write-wins must expose. -/
def lastDefFor (defs : List ElementDef) (k : String) : Option ElementDef :=
  (defs.filter (fun d =>
    match d.piElement with
    | some v => pyIdKey v == k
    | none => false)).getLast?

/-- Replacing the value at a present key makes `find?` return it. -/
theorem find?_replace (k : String) (v : ElemInfo) :
    ∀ m : List (String × ElemInfo), m.any (fun p => p.1 == k) = true →
      (m.map (fun p => if p.1 == k then (k, v) else p)).find?
        (fun p => p.1 == k) = some (k, v) := by
  intro m
  induction m with
  | nil => intro h; simp at h
  | cons p ps ih =>
    intro hany
    rw [List.map_cons]
    by_cases hp : (p.1 == k) = true
    · rw [if_pos hp, List.find?_cons]
      simp
    · rw [if_neg hp, List.find?_cons]
      have hp' : (p.1 == k) = false := Bool.eq_false_iff.mpr hp
      simp only [hp']
      simp only [List.any_cons, hp', Bool.false_or] at hany
      exact ih hany

/-- Appending a fresh key makes `find?` return it. -/
theorem find?_append_new (k : String) (v : ElemInfo) :
    ∀ m : List (String × ElemInfo), m.any (fun p => p.1 == k) = false →
      ((m ++ [(k, v)]).find? (fun p => p.1 == k)) = some (k, v) := by
  intro m
  induction m with
  | nil =>
    intro _
    rw [List.nil_append, List.find?_cons]
    simp
  | cons p ps ih =>
    intro hany
    simp only [List.any_cons, Bool.or_eq_false_iff] at hany
    rw [List.cons_append, List.find?_cons]
    simp only [hany.1]
    exact ih hany.2

/-- `find?` at the inserted key. -/
theorem lookupFind_insertOrReplace_self (m : List (String × ElemInfo))
    (k : String) (v : ElemInfo) :
    lookupFind (insertOrReplace m k v) k = some v := by
  unfold lookupFind insertOrReplace
  by_cases hany : m.any (fun p => p.1 == k) = true
  · rw [if_pos hany, find?_replace k v m hany]
    rfl
  · rw [if_neg hany, find?_append_new k v m (Bool.eq_false_iff.mpr hany)]
    rfl

/-- `find?` after a map-replace at a different key is untouched. -/
theorem find?_replace_other (k k' : String) (v : ElemInfo) (hk : ¬ (k' = k)) :
    ∀ m : List (String × ElemInfo),
      (m.map (fun p => if p.1 == k then (k, v) else p)).find?
        (fun p => p.1 == k') = m.find? (fun p => p.1 == k') := by
  intro m
  induction m with
  | nil => rfl
  | cons p ps ih =>
    rw [List.map_cons]
    by_cases hp : (p.1 == k) = true
    · rw [if_pos hp]
      have h1 : ((k : String) == k') = false := by
        simp only [beq_eq_false_iff_ne, ne_eq]
        exact fun h => hk h.symm
      have h2 : (p.1 == k') = false := by
        simp only [beq_eq_false_iff_ne, ne_eq]
        intro h
        rw [beq_iff_eq] at hp
        exact hk (h.symm.trans hp)
      rw [List.find?_cons, List.find?_cons]
      simp only [h1, h2]
      exact ih
    · rw [if_neg hp]
      by_cases hq : (p.1 == k') = true
      · rw [List.find?_cons, List.find?_cons]
        simp only [hq]
      · have hq' : (p.1 == k') = false := Bool.eq_false_iff.mpr hq
        rw [List.find?_cons, List.find?_cons]
        simp only [hq']
        exact ih

/-- `find?` past a trailing fresh key at a different key is untouched. -/
theorem find?_concat_other (k k' : String) (v : ElemInfo) (hk : ¬ (k' = k)) :
    ∀ m : List (String × ElemInfo),
      ((m ++ [(k, v)]).find? (fun p => p.1 == k')) =
        m.find? (fun p => p.1 == k') := by
  intro m
  induction m with
  | nil =>
    rw [List.nil_append, List.find?_cons]
    have h1 : ((k : String) == k') = false := by
      simp only [beq_eq_false_iff_ne, ne_eq]
      exact fun h => hk h.symm
    simp only [h1]
  | cons p ps ih =>
    rw [List.cons_append]
    by_cases hq : (p.1 == k') = true
    · rw [List.find?_cons, List.find?_cons]
      simp only [hq]
    · have hq' : (p.1 == k') = false := Bool.eq_false_iff.mpr hq
      rw [List.find?_cons, List.find?_cons]
      simp only [hq']
      exact ih

/-- `find?` at any other key is untouched by an insertion. -/
theorem lookupFind_insertOrReplace_other (m : List (String × ElemInfo))
    (k k' : String) (v : ElemInfo) (hk : ¬ (k' = k)) :
    lookupFind (insertOrReplace m k v) k' = lookupFind m k' := by
  unfold lookupFind insertOrReplace
  split
  · rw [find?_replace_other k k' v hk m]
  · rw [find?_concat_other k k' v hk m]

/-- Last-write-wins, stated against the list of definitions: the registry
value at `k` comes from the last definition normalizing to `k`. -/
theorem build_lookupFind_eq_lastDefFor :
    ∀ (defs : List ElementDef) (k : String),
      lookupFind (build_elements_lookup defs) k =
        (lastDefFor defs k).map
          (fun d => ⟨k, d.askLookFor, d.calibratorNotes⟩) := by
  intro defs
  induction defs using List.reverseRecOn with
  | nil => intro k; rfl
  | append_singleton defs d ih =>
    intro k
    cases hde : d.piElement with
    | none =>
      have hb : build_elements_lookup (defs ++ [d]) = build_elements_lookup defs := by
        unfold build_elements_lookup
        rw [List.foldl_append, List.foldl_cons, List.foldl_nil]
        simp only [hde]
      have hl : lastDefFor (defs ++ [d]) k = lastDefFor defs k := by
        unfold lastDefFor
        rw [List.filter_append]
        have hf : (List.filter
            (fun d => match d.piElement with
              | some v => pyIdKey v == k
              | none => false) [d]) = [] := by
          simp [List.filter_cons, hde]
        rw [hf, List.append_nil]
      rw [hb, hl]
      exact ih k
    | some eid =>
      have hb : build_elements_lookup (defs ++ [d]) =
          insertOrReplace (build_elements_lookup defs) (pyIdKey eid)
            ⟨pyIdKey eid, d.askLookFor, d.calibratorNotes⟩ := by
        unfold build_elements_lookup
        rw [List.foldl_append, List.foldl_cons, List.foldl_nil]
        simp only [hde]
      rw [hb]
      by_cases hkk : (pyIdKey eid == k) = true
      · have hkeq : pyIdKey eid = k := beq_iff_eq.mp hkk
        have hl : lastDefFor (defs ++ [d]) k = some d := by
          unfold lastDefFor
          rw [List.filter_append]
          have hf : (List.filter
              (fun d => match d.piElement with
                | some v => pyIdKey v == k
                | none => false) [d]) = [d] := by
            simp [List.filter_cons, hde, hkk]
          rw [hf, List.getLast?_concat]
        rw [hl, hkeq, lookupFind_insertOrReplace_self]
        rfl
      · have hne : ¬ (k = pyIdKey eid) := fun h => hkk (beq_iff_eq.mpr h.symm)
        have hl : lastDefFor (defs ++ [d]) k = lastDefFor defs k := by
          unfold lastDefFor
          rw [List.filter_append]
          have hf : (List.filter
              (fun d => match d.piElement with
                | some v => pyIdKey v == k
                | none => false) [d]) = [] := by
            simp [List.filter_cons, hde, Bool.eq_false_iff.mpr hkk]
          rw [hf, List.append_nil]
        rw [hl, lookupFind_insertOrReplace_other _ _ _ _ hne]
        exact ih k

/-- A key is present in an association list iff `find?` succeeds on it. -/
theorem mem_keys_iff_lookupFind (m : List (String × ElemInfo)) (k : String) :
    k ∈ m.map (·.1) ↔ (lookupFind m k).isSome := by
  unfold lookupFind
  constructor
  · intro h
    obtain ⟨p, hp, hpk⟩ := List.mem_map.mp h
    have hfind : ((m.find? (fun p => p.1 == k)).isSome) :=
      List.find?_isSome.mpr ⟨p, hp, by simp [hpk]⟩
    rwa [Option.isSome_map']
  · intro h
    rw [Option.isSome_map'] at h
    obtain ⟨p, hp, hpk⟩ := List.find?_isSome.mp h
    exact List.mem_map.mpr ⟨p, hp, beq_iff_eq.mp hpk⟩

/-- `lastDefFor` succeeds exactly when some definition normalizes to the
key. -/
theorem lastDefFor_isSome_iff (defs : List ElementDef) (k : String) :
    (lastDefFor defs k).isSome ↔
      ∃ d ∈ defs, ∃ v, d.piElement = some v ∧ pyIdKey v = k := by
  unfold lastDefFor
  rw [List.getLast?_isSome]
  constructor
  · intro h
    obtain ⟨d, hd⟩ := List.exists_mem_of_ne_nil _ h
    obtain ⟨hdm, hpred⟩ := List.mem_filter.mp hd
    cases hde : d.piElement with
    | none => rw [hde] at hpred; simp at hpred
    | some v =>
      rw [hde] at hpred
      exact ⟨d, hdm, v, hde, beq_iff_eq.mp hpred⟩
  · rintro ⟨d, hdm, v, hdv, hvk⟩ hnil
    have hd : d ∈ List.filter
        (fun d => match d.piElement with
          | some v => pyIdKey v == k
          | none => false) defs :=
      List.mem_filter.mpr ⟨hdm, by rw [hdv]; exact beq_iff_eq.mpr hvk⟩
    rw [hnil] at hd
    exact List.not_mem_nil d hd

/-- C7: `build_elements_lookup` is total; a definition with a missing/null
id is silently skipped; a key is present exactly when some definition
normalizes to it; and on key collisions the later definition's data wins
(the stored value is that of the last definition normalizing to the key). -/
theorem c7_build_lookup_skips_none_and_last_write_wins :
    (∀ (pre post : List ElementDef) (d : ElementDef), d.piElement = none →
      build_elements_lookup (pre ++ d :: post) = build_elements_lookup (pre ++ post)) ∧
    (∀ (defs : List ElementDef) (k : String),
      lookupFind (build_elements_lookup defs) k =
        (lastDefFor defs k).map
          (fun d => ⟨k, d.askLookFor, d.calibratorNotes⟩)) ∧
    (∀ (defs : List ElementDef) (k : String),
      k ∈ (build_elements_lookup defs).map (·.1) ↔
        ∃ d ∈ defs, ∃ v, d.piElement = some v ∧ pyIdKey v = k) := by
  refine ⟨?_, build_lookupFind_eq_lastDefFor, ?_⟩
  · intro pre post d hd
    unfold build_elements_lookup
    rw [List.foldl_append, List.foldl_append, List.foldl_cons]
    congr 1
    simp only [hd]
  · intro defs k
    rw [mem_keys_iff_lookupFind, build_lookupFind_eq_lastDefFor, Option.isSome_map']
    exact lastDefFor_isSome_iff defs k

/-- C7 witness: the theorem applied at concrete inputs — a null-id
definition is skipped, and of two colliding `2.1` definitions the later
one's data is stored. -/
theorem c7_witness :
    build_elements_lookup ([] ++ (⟨none, "a", "b"⟩ : ElementDef) :: []) =
      build_elements_lookup ([] ++ []) ∧
    lookupFind (build_elements_lookup
        [⟨some (PyId.str "2.1"), "x", "y"⟩, ⟨some (PyId.str "2.1"), "x2", "y2"⟩]) "2.1" =
      (lastDefFor
        [⟨some (PyId.str "2.1"), "x", "y"⟩, ⟨some (PyId.str "2.1"), "x2", "y2"⟩] "2.1").map
          (fun d => ⟨"2.1", d.askLookFor, d.calibratorNotes⟩) :=
  ⟨c7_build_lookup_skips_none_and_last_write_wins.1 [] [] ⟨none, "a", "b"⟩ rfl,
   c7_build_lookup_skips_none_and_last_write_wins.2.1
     [⟨some (PyId.str "2.1"), "x", "y"⟩, ⟨some (PyId.str "2.1"), "x2", "y2"⟩] "2.1"⟩

/-- C9 witness: the theorem applied at a concrete slide configuration —
registry `["2.1"]`, primary `2.1`, iteration `["2.1", "2.1A"]` — with the
membership hypothesis of the flag clause discharged at the emitted
triple. -/
theorem c9_witness :
    ((slidePairsCore ["2.1"] (some "2.1") ["2.1", "2.1A"] []).countP
      (fun trip => trip.2.2)) ≤ 1 ∧
    (("2.1", "2.1", true) : String × String × Bool).2.2 =
      ((some "2.1" : Option String) ==
        some (("2.1", "2.1", true) : String × String × Bool).2.1) :=
  ⟨c9_at_most_one_primary_entry_per_slide.1 ["2.1"] (some "2.1") ["2.1", "2.1A"],
   c9_at_most_one_primary_entry_per_slide.2.1 ["2.1"] (some "2.1")
     ["2.1", "2.1A"] [] ("2.1", "2.1", true) (by decide)⟩
